import Mathlib

/-!
# PromptForge — verification of the versioning and composition core

Shallow embedding of the PromptForge repository (`src/prompt_forge`):

* `core/role_profiles.py` — the role-profile table and `get_sections_for_role`,
  translated directly from the source.
* `api/versions.py` — the version endpoints (`create_version`, `list_versions`,
  `get_version`, `diff_versions`, `rollback_version`) and the helpers
  `_auto_subscribe` and `_notify_subscribers`, translated directly from the
  source.  Stateful collaborators (the row store behind `SupabaseClient`) are
  threaded explicitly as state.
* The `VersionControl` engine (`core/vcs.py`), the `StructuralDiffer`
  (`core/differ.py`), the `CompositionResolver` (`core/resolver.py` /
  `core/composer.py`) and the registry are not present under `src/`; where a
  claim depends on them they are modelled from the spec, and each such
  definition is marked `Modelled from the spec:` in its doc comment.

Python `dict[str, str]` section maps are ordered association lists
`List (String × String)`; Python `None` is `Option.none`; raised
`HTTPException`s are the `error` constructor of an `ApiResult`.
-/

/-- A section map: ordered association list from section key to text
(Python `dict[str, str]`, insertion-ordered). -/
abbrev Content := List (String × String)

/-- `ROLE_PROFILES` from `core/role_profiles.py`, an ordered table from role
name to either `none` (the "full SOUL" sentinel) or an explicit ordered
allow-list of section keys. -/
def ROLE_PROFILES : List (String × Option (List String)) :=
  [("king", none),
   ("developer", some ["voice", "identity", "boundaries", "thinking_mode",
                       "anti_patterns", "communication_rules"]),
   ("reviewer", some ["voice", "identity", "boundaries", "communication_rules"]),
   ("tester", some ["voice", "identity", "boundaries", "communication_rules"]),
   ("security", some ["voice", "identity", "boundaries", "communication_rules"])]

/-- `get_sections_for_role` from `core/role_profiles.py`:
`return ROLE_PROFILES.get(role)`.  Python's `dict.get` returns `None` both
when the key is absent and when the stored value is itself `None`, hence the
`Option.join`. -/
def get_sections_for_role (role : String) : Option (List String) :=
  (ROLE_PROFILES.lookup role).join

/-- Result of resolving a composed view for a role. -/
inductive ResolveResult where
  | composed (sections : List (String × String))
  | rolePolicyUnknown
  deriving DecidableEq, Repr

/-- Modelled from the spec: `CompositionResolver.resolve` — the resolver
module (`core/resolver.py` / `core/composer.py`) is not under `src/`.
Per §4.3: look the role up in the role-profile table (the source
`ROLE_PROFILES`); an absent role fails with `RolePolicyUnknown`; the "all"
sentinel returns every section of the content in original order; an explicit
allow-list returns exactly the sections whose key appears in the allow-list,
in the allow-list's declared order, silently skipping listed keys absent from
the content. -/
def resolve (content : Content) (role : String) : ResolveResult :=
  match ROLE_PROFILES.lookup role with
  | none => ResolveResult.rolePolicyUnknown
  | some none => ResolveResult.composed content
  | some (some allow) =>
      ResolveResult.composed
        (allow.filterMap fun k => (content.lookup k).map fun v => (k, v))

/-- The role names present in the role-profile table. -/
def roleNames : List String := ROLE_PROFILES.map Prod.fst

/-- The declared allow-list of the `developer` role profile. -/
def developerAllowList : List String :=
  ["voice", "identity", "boundaries", "thinking_mode", "anti_patterns",
   "communication_rules"]

lemma lookup_eq_none_of_not_mem_roleNames {role : String}
    (h : role ∉ roleNames) : ROLE_PROFILES.lookup role = none := by
  simp only [roleNames, ROLE_PROFILES, List.map, List.mem_cons,
    List.not_mem_nil, or_false, not_or] at h
  obtain ⟨h1, h2, h3, h4, h5⟩ := h
  have e1 : (role == "king") = false := beq_eq_false_iff_ne.mpr h1
  have e2 : (role == "developer") = false := beq_eq_false_iff_ne.mpr h2
  have e3 : (role == "reviewer") = false := beq_eq_false_iff_ne.mpr h3
  have e4 : (role == "tester") = false := beq_eq_false_iff_ne.mpr h4
  have e5 : (role == "security") = false := beq_eq_false_iff_ne.mpr h5
  simp [ROLE_PROFILES, List.lookup, e1, e2, e3, e4, e5]

lemma filterMap_lookup_map_fst (allow : List String) (content : Content) :
    (allow.filterMap fun k => (content.lookup k).map fun v => (k, v)).map
        Prod.fst =
      allow.filter fun k => (content.lookup k).isSome := by
  induction allow with
  | nil => rfl
  | cons k rest ih =>
      cases h : content.lookup k with
      | none => simp [List.filterMap_cons, List.filter_cons, h, ih]
      | some v => simp [List.filterMap_cons, List.filter_cons, h, ih]

lemma mem_filterMap_lookup {allow : List String} {content : Content}
    {p : String × String}
    (hp : p ∈ allow.filterMap fun k => (content.lookup k).map fun v => (k, v)) :
    p.1 ∈ allow ∧ content.lookup p.1 = some p.2 := by
  simp only [List.mem_filterMap, Option.map_eq_some'] at hp
  obtain ⟨k, hk, v, hv, rfl⟩ := hp
  exact ⟨hk, hv⟩

/-- A Version (commit): immutable snapshot, as in §3 of the spec and
`VersionResponse`. -/
structure Version where
  prompt_id : String
  branch : String
  version : Nat
  content : Content
  message : String
  author : String
  deriving DecidableEq, Repr

/-- The versions stored for one (prompt, branch), in the order they were
appended to the store. -/
def branchVersions (s : List Version) (p b : String) : List Version :=
  s.filter fun v => v.prompt_id == p && v.branch == b

/-- The head: highest committed version number for (prompt, branch),
0 if the branch has no history. -/
def head (s : List Version) (p b : String) : Nat :=
  ((branchVersions s p b).map Version.version).foldr max 0

/-- Modelled from the spec: `VersionControl.commit` (`core/vcs.py` is not
under `src/`).  Per §4.1: determine the current head for (prompt, branch)
(0 if no history), assign `version = head + 1`, append the new Version, and
return it.  The sequential model covers successful commits; `Conflict` is a
concurrency outcome outside this embedding. -/
def commit (s : List Version) (p b : String) (c : Content) (msg author : String) :
    Version × List Version :=
  let v : Version := ⟨p, b, head s p b + 1, c, msg, author⟩
  (v, s ++ [v])

/-- Descending order on version numbers. -/
def verGE (a b : Version) : Prop := b.version ≤ a.version

instance : DecidableRel verGE := fun a b => Nat.decLe b.version a.version

instance : IsTotal Version verGE :=
  ⟨fun a b => by unfold verGE; exact Nat.le_total b.version a.version⟩

instance : IsTrans Version verGE :=
  ⟨fun _ _ _ h1 h2 => by unfold verGE at *; exact Nat.le_trans h2 h1⟩

/-- Modelled from the spec: `VersionControl.history` (`core/vcs.py` is not
under `src/`).  Per §4.1: up to `limit` most recent Versions ordered by
`version` descending. -/
def history (s : List Version) (p b : String) (limit : Nat) : List Version :=
  (List.insertionSort verGE (branchVersions s p b)).take limit

/-- Modelled from the spec: `VersionControl.get_version` (`core/vcs.py` is
not under `src/`).  Per §4.1: exact lookup, no fallback to a nearest
version. -/
def vcs_get_version (s : List Version) (p : String) (ver : Nat) (b : String) :
    Option Version :=
  (branchVersions s p b).find? fun v => v.version == ver

/-- Modelled from the spec: `VersionControl.rollback` (`core/vcs.py` is not
under `src/`).  Per §4.1: read the target Version's content, then `commit`
that content with a generated message recording the rollback source; if the
target does not exist, return `NotFound` (`none`) without creating any new
Version.  The endpoint passes no branch, so the default branch `main` is
used. -/
def rollback (s : List Version) (p : String) (ver : Nat) (author : String) :
    Option (Version × List Version) :=
  match vcs_get_version s p ver "main" with
  | none => none
  | some target =>
      some (commit s p "main" target.content
        ("Rollback to version " ++ toString ver) author)

/-- A row of the `prompt_subscriptions` table. -/
structure SubRow where
  id : Nat
  prompt_id : String
  agent_id : String
  subscribed_at : String
  last_pulled_at : String
  deriving DecidableEq, Repr

/-- The `prompt_subscriptions` table: its rows plus the id the row store
will assign to the next inserted row. -/
structure SubStore where
  rows : List SubRow
  nextId : Nat
  deriving DecidableEq, Repr

/-- The subscription rows for `(prompt_id, agent_id)`, in the shape the code
computes them: a `prompt_id`-filtered select, then an `agent_id` filter. -/
def subMatches (pid a : String) (rows : List SubRow) : List SubRow :=
  (rows.filter fun r => r.prompt_id == pid).filter fun r => r.agent_id == a

/-- `_auto_subscribe` from `api/versions.py`: if `agent_id` is falsy
(`None` or the empty string) return without touching the store; otherwise
select the rows for `(prompt_id, agent_id)`; if one exists, update that
row's `last_pulled_at` by id; else insert a new row.  `now` stands for
`datetime.now(timezone.utc).isoformat()`. -/
def auto_subscribe (now pid : String) :
    Option String → SubStore → SubStore
  | none, db => db
  | some a, db =>
      if a = "" then db
      else
        match subMatches pid a db.rows with
        | [] =>
            { rows := db.rows ++ [⟨db.nextId, pid, a, now, now⟩],
              nextId := db.nextId + 1 }
        | e :: _ =>
            { db with
              rows := db.rows.map fun r =>
                if r.id == e.id then { r with last_pulled_at := now } else r }

/-- The stored state the version endpoints can reach: the version store and
the subscription table. -/
structure ForgeState where
  versions : List Version
  subs : SubStore
  deriving DecidableEq, Repr

/-- Outcome of an endpoint: a value, or an `HTTPException` with status code
and detail (a 422 also stands for FastAPI's request-validation rejection). -/
inductive ApiResult (α : Type) where
  | ok (val : α)
  | error (status : Nat) (detail : String)
  deriving DecidableEq, Repr

/-- Change kind of a section-level diff entry. -/
inductive ChangeKind where
  | added
  | removed
  | modified
  | unchanged
  deriving DecidableEq, Repr

/-- Modelled from the spec: `StructuralDiffer.diff`'s key iteration order
(`core/differ.py` is not under `src/`).  Per §4.2: all keys of `content_a`
in their original order, then keys present only in `content_b` in their
original order. -/
def unionKeys (a b : Content) : List String :=
  a.map Prod.fst ++
    ((b.map Prod.fst).filter fun k => !(a.map Prod.fst).contains k)

/-- Modelled from the spec: `StructuralDiffer.diff`'s per-key
classification (`core/differ.py` is not under `src/`). -/
def classify (a b : Content) (k : String) : ChangeKind :=
  match a.lookup k, b.lookup k with
  | none, _ => ChangeKind.added
  | some _, none => ChangeKind.removed
  | some x, some y => if x = y then ChangeKind.unchanged else ChangeKind.modified

/-- Modelled from the spec: `StructuralDiffer.diff` (`core/differ.py` is not
under `src/`), a pure function of the two section maps.  The summary counts
and the floating-point similarity ratio are omitted: no claim depends on
them. -/
def structural_diff (a b : Content) : List (String × ChangeKind) :=
  (unionKeys a b).map fun k => (k, classify a b k)

/-- Event payload of a `prompt.updated` notification, as built by
`_notify_subscribers`. -/
structure EventData where
  slug : String
  prompt_id : String
  old_version : Nat
  new_version : Nat
  change_note : String
  priority : String
  deriving DecidableEq, Repr

/-- Publish one event per subscriber in order, propagating the first
failure — the body of `_notify_subscribers`' loop, with
`publisher.publish` abstracted as a fallible `publish` function. -/
def publishAll (publish : String → EventData → Except String Unit)
    (subs : List SubRow) (mk : SubRow → String × EventData) :
    Except String Unit :=
  match subs with
  | [] => Except.ok ()
  | s :: rest =>
      match publish (mk s).1 (mk s).2 with
      | Except.ok _ => publishAll publish rest mk
      | Except.error e => Except.error e

/-- The `try: ... except Exception: logger.warning(...)` wrapper: whatever
the wrapped body did, the function returns normally. -/
def swallow (body : Except String Unit) : Except String Unit :=
  match body with
  | Except.ok _ => Except.ok ()
  | Except.error _ => Except.ok ()

/-- `_notify_subscribers` from `api/versions.py`: the whole body runs inside
`try: ... except Exception: logger.warning(...)` (the `swallow`), so any
failure while selecting subscribers or publishing never escapes.
`connected` models `publisher._connected`; an unconnected publisher returns
early. -/
def notify_subscribers (connected : Bool) (db : SubStore)
    (pid slug : String) (old_version new_version : Nat)
    (change_note priority : String)
    (publish : String → EventData → Except String Unit) :
    Except String Unit :=
  swallow
    (if !connected then Except.ok ()
     else
       publishAll publish (db.rows.filter fun r => r.prompt_id == pid)
         fun sub =>
           ("swarm.forge.agent." ++ sub.agent_id ++ ".prompt-updated",
            ⟨slug, pid, old_version, new_version, change_note, priority⟩))

/-- Request body of `POST /{slug}/versions` (`VersionCreate`). -/
structure VersionCreate where
  branch : String
  content : Content
  message : String
  author : String
  priority : Option String
  deriving DecidableEq, Repr

/-- `create_version` from `api/versions.py`: resolve the prompt (404 when
unknown), read the old head via `history(limit=1)`, commit, then notify
subscribers; a notification failure, were `_notify_subscribers` ever to
raise, would surface as a 500 after the durable commit (the `error` branch).
`registry.get_prompt` is abstracted as `reg : slug → Option prompt_id`. -/
def create_version_endpoint (reg : String → Option String) (connected : Bool)
    (publish : String → EventData → Except String Unit)
    (σ : ForgeState) (slug : String) (data : VersionCreate) :
    ApiResult Version × ForgeState :=
  match reg slug with
  | none => (ApiResult.error 404 ("Prompt '" ++ slug ++ "' not found"), σ)
  | some pid =>
      let hist := history σ.versions pid data.branch 1
      let old_version := match hist with | [] => 0 | h :: _ => h.version
      let cr := commit σ.versions pid data.branch data.content data.message
        data.author
      let priority := match data.priority with
        | none => "normal"
        | some p => if p = "" then "normal" else p
      match notify_subscribers connected σ.subs pid slug old_version
          cr.1.version data.message priority publish with
      | Except.ok _ => (ApiResult.ok cr.1, { σ with versions := cr.2 })
      | Except.error e => (ApiResult.error 500 e, { σ with versions := cr.2 })

/-- `list_versions` from `api/versions.py`: the query parameter is declared
`limit: int = Query(default=50, le=200)`, so FastAPI rejects any request
with `limit > 200` as a 422 validation error before the handler runs;
otherwise resolve the prompt (404 when unknown) and return the history. -/
def list_versions_endpoint (reg : String → Option String) (σ : ForgeState)
    (slug branch : String) (limit : Int) :
    ApiResult (List Version) × ForgeState :=
  if 200 < limit then
    (ApiResult.error 422 "Input should be less than or equal to 200", σ)
  else
    match reg slug with
    | none => (ApiResult.error 404 ("Prompt '" ++ slug ++ "' not found"), σ)
    | some pid => (ApiResult.ok (history σ.versions pid branch limit.toNat), σ)

/-- `get_version` from `api/versions.py`: resolve the prompt and the exact
version (404 when either is missing), then `_auto_subscribe` the caller's
`X-Agent-ID` before returning the version. -/
def get_version_endpoint (now : String) (reg : String → Option String)
    (σ : ForgeState) (slug : String) (ver : Nat) (branch : String)
    (x_agent_id : Option String) : ApiResult Version × ForgeState :=
  match reg slug with
  | none => (ApiResult.error 404 ("Prompt '" ++ slug ++ "' not found"), σ)
  | some pid =>
      match vcs_get_version σ.versions pid ver branch with
      | none =>
          (ApiResult.error 404 ("Version " ++ toString ver ++ " not found"), σ)
      | some v =>
          (ApiResult.ok v,
           { σ with subs := auto_subscribe now pid x_agent_id σ.subs })

/-- `diff_versions` from `api/versions.py`: resolve the prompt and both
versions (404 when any is missing), then run the structural differ on their
contents.  A pure read. -/
def diff_versions_endpoint (reg : String → Option String) (σ : ForgeState)
    (slug : String) (from_version to_version : Nat) (branch : String) :
    ApiResult (List (String × ChangeKind)) × ForgeState :=
  match reg slug with
  | none => (ApiResult.error 404 ("Prompt '" ++ slug ++ "' not found"), σ)
  | some pid =>
      match vcs_get_version σ.versions pid from_version branch,
            vcs_get_version σ.versions pid to_version branch with
      | some vf, some vt =>
          (ApiResult.ok (structural_diff vf.content vt.content), σ)
      | _, _ => (ApiResult.error 404 "One or both versions not found", σ)

/-- Modelled from the spec: the resolve/pull endpoint (`core/resolver.py` /
`core/composer.py` are not under `src/`).  Per §6: fetch the
latest-or-specified Version (404 when missing) and feed it to the resolver
with the role; `RolePolicyUnknown` maps to a 422.  A pure read. -/
def resolve_endpoint (reg : String → Option String) (σ : ForgeState)
    (slug : String) (ver : Option Nat) (branch role : String) :
    ApiResult (List (String × String)) × ForgeState :=
  match reg slug with
  | none => (ApiResult.error 404 ("Prompt '" ++ slug ++ "' not found"), σ)
  | some pid =>
      let target := match ver with
        | some n => n
        | none => head σ.versions pid branch
      match vcs_get_version σ.versions pid target branch with
      | none =>
          (ApiResult.error 404 ("Version " ++ toString target ++ " not found"),
           σ)
      | some v =>
          match resolve v.content role with
          | ResolveResult.composed secs => (ApiResult.ok secs, σ)
          | ResolveResult.rolePolicyUnknown =>
              (ApiResult.error 422 ("Unknown role: " ++ role), σ)

/-- `rollback_version` from `api/versions.py`: resolve the prompt (404 when
unknown), then `vcs.rollback`; `NotFound` from the engine maps to a 404
with no state change. -/
def rollback_endpoint (reg : String → Option String) (σ : ForgeState)
    (slug : String) (ver : Nat) (author : String) :
    ApiResult Version × ForgeState :=
  match reg slug with
  | none => (ApiResult.error 404 ("Prompt '" ++ slug ++ "' not found"), σ)
  | some pid =>
      match rollback σ.versions pid ver author with
      | none =>
          (ApiResult.error 404 ("Version " ++ toString ver ++ " not found"), σ)
      | some (v, vs) => (ApiResult.ok v, { σ with versions := vs })

/-- A one-prompt registry fixture: slug `soul` maps to prompt id `p1`. -/
def regFixture : String → Option String :=
  fun slug => if slug == "soul" then some "p1" else none

/-- A small state fixture: one committed version on `(p1, main)`, no
subscriptions yet. -/
def stateFixture : ForgeState :=
  { versions :=
      [⟨"p1", "main", 1, [("voice", "v1"), ("identity", "i1")], "m", "a"⟩],
    subs := { rows := [], nextId := 1 } }

/-- C1: a role name absent from the role-profile table makes `resolve` fail
with `RolePolicyUnknown`; no default role profile is substituted. -/
theorem resolve_unknown_role_fails (content : Content) (role : String)
    (h : role ∉ roleNames) :
    resolve content role = ResolveResult.rolePolicyUnknown := by
  unfold resolve
  rw [lookup_eq_none_of_not_mem_roleNames h]

theorem resolve_unknown_role_fails_witness :
    "unknown-role" ∉ roleNames ∧
    resolve [("voice", "v")] "unknown-role" =
      ResolveResult.rolePolicyUnknown :=
  ⟨by decide,
   resolve_unknown_role_fails [("voice", "v")] "unknown-role" (by decide)⟩

/-- C5: resolving with role `developer` yields exactly the sections whose
key is in the declared allow-list and present in the content, in the
allow-list's declared order; a listed key absent from the content is
silently skipped and no other section is included. -/
theorem resolve_developer_allowlist (content : Content) :
    resolve content "developer" =
      ResolveResult.composed
        (developerAllowList.filterMap fun k =>
          (content.lookup k).map fun v => (k, v)) ∧
    (developerAllowList.filterMap fun k =>
        (content.lookup k).map fun v => (k, v)).map Prod.fst =
      developerAllowList.filter (fun k => (content.lookup k).isSome) ∧
    ∀ p ∈ (developerAllowList.filterMap fun k =>
        (content.lookup k).map fun v => (k, v)),
      p.1 ∈ developerAllowList ∧ content.lookup p.1 = some p.2 :=
  ⟨rfl, filterMap_lookup_map_fst _ _, fun _ hp => mem_filterMap_lookup hp⟩

theorem resolve_developer_allowlist_witness :
    resolve [("identity", "i"), ("extra", "x"), ("voice", "v")] "developer" =
      ResolveResult.composed [("voice", "v"), ("identity", "i")] ∧
    ("voice" ∈ developerAllowList ∧
      ([("identity", "i"), ("extra", "x"),
        ("voice", "v")] : Content).lookup "voice" = some "v") := by
  have h := resolve_developer_allowlist
    [("identity", "i"), ("extra", "x"), ("voice", "v")]
  exact ⟨h.1, h.2.2 ("voice", "v") (by decide)⟩

/-- C6: resolving with role `king` (the "all" sentinel) yields every
section of the content in its original order. -/
theorem resolve_king_full_content (content : Content) :
    resolve content "king" = ResolveResult.composed content := rfl

/-- C9: for a role outside the table, `get_sections_for_role` returns
`none` without raising — the same sentinel value it returns for `king`, so
this function alone cannot distinguish an unknown role from the
full-content role. -/
theorem get_sections_unknown_eq_king (role : String)
    (h : role ∉ roleNames) :
    get_sections_for_role role = none ∧
    get_sections_for_role "king" = none := by
  refine ⟨?_, rfl⟩
  unfold get_sections_for_role
  rw [lookup_eq_none_of_not_mem_roleNames h]
  rfl

theorem get_sections_unknown_eq_king_witness :
    "unknown-role" ∉ roleNames ∧
    get_sections_for_role "unknown-role" = none ∧
    get_sections_for_role "king" = none :=
  ⟨by decide, get_sections_unknown_eq_king "unknown-role" (by decide)⟩

lemma foldr_max_init (l : List Nat) (c : Nat) :
    l.foldr max c = max (l.foldr max 0) c := by
  induction l with
  | nil => simp
  | cons a l ih =>
      rw [List.foldr_cons, ih, List.foldr_cons, Nat.max_assoc]

lemma branchVersions_append_single (s : List Version) (v : Version)
    (p b : String) :
    branchVersions (s ++ [v]) p b =
      branchVersions s p b ++
        (if v.prompt_id == p && v.branch == b then [v] else []) := by
  unfold branchVersions
  rw [List.filter_append]
  congr 1
  rw [List.filter_cons]
  split <;> simp

lemma head_append_matching (s : List Version) (p b : String) (v : Version)
    (hp : v.prompt_id = p) (hb : v.branch = b) :
    head (s ++ [v]) p b = max (head s p b) v.version := by
  unfold head
  rw [branchVersions_append_single]
  rw [if_pos (by simp [hp, hb])]
  rw [List.map_append, List.foldr_append]
  simp only [List.map_cons, List.map_nil, List.foldr_cons, List.foldr_nil,
    Nat.max_zero]
  rw [foldr_max_init]

lemma head_append_other (s : List Version) (p b : String) (v : Version)
    (h : ¬(v.prompt_id = p ∧ v.branch = b)) :
    head (s ++ [v]) p b = head s p b := by
  unfold head
  rw [branchVersions_append_single]
  rw [if_neg (by simp only [Bool.and_eq_true, beq_iff_eq]; exact h)]
  rw [List.append_nil]

/-- C3: a successful commit assigns version `head + 1` for its
(prompt, branch) — so the first commit on a fresh branch gets version 1 —
advances that branch's head to exactly `head + 1`, and leaves the head of
every other (prompt, branch) untouched; hence successive commits on one
branch number 1, 2, 3, … with no gaps and no repeats. -/
theorem commit_version_numbering (s : List Version) (p b : String)
    (c : Content) (msg author p' b' : String) (h : (p', b') ≠ (p, b)) :
    (commit s p b c msg author).1.version = head s p b + 1 ∧
    head (commit s p b c msg author).2 p b = head s p b + 1 ∧
    head (commit s p b c msg author).2 p' b' = head s p' b' ∧
    (branchVersions s p b = [] → (commit s p b c msg author).1.version = 1) := by
  refine ⟨rfl, ?_, ?_, ?_⟩
  · rw [show (commit s p b c msg author).2 =
        s ++ [⟨p, b, head s p b + 1, c, msg, author⟩] from rfl]
    rw [head_append_matching s p b _ rfl rfl]
    exact Nat.max_eq_right (Nat.le_succ _)
  · rw [show (commit s p b c msg author).2 =
        s ++ [⟨p, b, head s p b + 1, c, msg, author⟩] from rfl]
    apply head_append_other
    rintro ⟨hp, hb⟩
    exact h (by rw [← hp, ← hb])
  · intro he
    show head s p b + 1 = 1
    rw [head, he]
    rfl

theorem commit_version_numbering_witness :
    (commit [] "p1" "main" [("voice", "v")] "m" "a").1.version = 1 ∧
    head (commit [] "p1" "main" [("voice", "v")] "m" "a").2 "p1" "main" = 1 ∧
    head (commit [] "p1" "main" [("voice", "v")] "m" "a").2 "p2" "main" = 0 := by
  have h := commit_version_numbering [] "p1" "main" [("voice", "v")] "m" "a"
    "p2" "main" (by decide)
  exact ⟨h.2.2.2 rfl, h.2.1, h.2.2.1.trans rfl⟩

/-- C4 counterexample: `limit = 201` is positive, yet
`Query(default=50, le=200)` makes the request fail validation with a 422 —
the limit is rejected, not clamped to the ceiling. -/
theorem list_versions_limit_201_rejected :
    (0 : Int) < 201 ∧
    (list_versions_endpoint regFixture stateFixture "soul" "main" 201).1 =
      ApiResult.error 422 "Input should be less than or equal to 200" :=
  ⟨by decide, rfl⟩

/-- C4 amended: a positive `limit` of at most 200 is accepted and returns at
most `limit` entries ordered by version descending; a `limit` above 200 is
rejected by request validation as a 422, not clamped. -/
theorem list_versions_limit_amended (reg : String → Option String)
    (σ : ForgeState) (slug branch : String) (limit bigLimit : Int)
    (pid : String) (hpos : 0 < limit) (hle : limit ≤ 200)
    (hreg : reg slug = some pid) (hbig : 200 < bigLimit) :
    (∃ l, (list_versions_endpoint reg σ slug branch limit).1 =
        ApiResult.ok l ∧
      (l.length : Int) ≤ limit ∧ l.Sorted verGE) ∧
    (list_versions_endpoint reg σ slug branch bigLimit).1 =
      ApiResult.error 422 "Input should be less than or equal to 200" := by
  constructor
  · unfold list_versions_endpoint
    rw [if_neg (by omega), hreg]
    refine ⟨history σ.versions pid branch limit.toNat, rfl, ?_, ?_⟩
    · have h1 : (history σ.versions pid branch limit.toNat).length ≤
          limit.toNat := by
        unfold history
        rw [List.length_take]
        exact min_le_left _ _
      omega
    · exact List.Pairwise.sublist (List.take_sublist _ _)
        (List.sorted_insertionSort verGE _)
  · unfold list_versions_endpoint
    rw [if_pos hbig]

theorem list_versions_limit_amended_witness :
    (∃ l, (list_versions_endpoint regFixture stateFixture "soul" "main" 50).1 =
        ApiResult.ok l ∧
      (l.length : Int) ≤ 50 ∧ l.Sorted verGE) ∧
    (list_versions_endpoint regFixture stateFixture "soul" "main" 300).1 =
      ApiResult.error 422 "Input should be less than or equal to 200" :=
  list_versions_limit_amended regFixture stateFixture "soul" "main" 50 300
    "p1" (by decide) (by decide) rfl (by decide)

/-- C8: when the rollback target version does not exist on the branch, the
endpoint returns a 404 and the whole stored state is unchanged — no Version
is created; when the target exists, exactly one new Version is appended
(with the target's content) and no prior Version is rewritten or removed. -/
theorem rollback_notfound_or_single_append (reg : String → Option String)
    (σ : ForgeState) (slug : String) (ver : Nat) (author pid : String)
    (hreg : reg slug = some pid) :
    (vcs_get_version σ.versions pid ver "main" = none →
      (rollback_endpoint reg σ slug ver author).1 =
        ApiResult.error 404 ("Version " ++ toString ver ++ " not found") ∧
      (rollback_endpoint reg σ slug ver author).2 = σ) ∧
    (∀ tv, vcs_get_version σ.versions pid ver "main" = some tv →
      ∃ nv, (rollback_endpoint reg σ slug ver author).1 = ApiResult.ok nv ∧
        (rollback_endpoint reg σ slug ver author).2.versions =
          σ.versions ++ [nv] ∧
        (rollback_endpoint reg σ slug ver author).2.subs = σ.subs ∧
        nv.content = tv.content) := by
  constructor
  · intro hnone
    simp [rollback_endpoint, rollback, hreg, hnone]
  · intro tv htv
    refine ⟨(commit σ.versions pid "main" tv.content
        ("Rollback to version " ++ toString ver) author).1, ?_, ?_, ?_, ?_⟩ <;>
      simp [rollback_endpoint, rollback, commit, hreg, htv]

theorem rollback_notfound_or_single_append_witness :
    ((rollback_endpoint regFixture stateFixture "soul" 5 "a").2 =
      stateFixture) ∧
    ∃ nv, (rollback_endpoint regFixture stateFixture "soul" 1 "a").1 =
        ApiResult.ok nv ∧
      (rollback_endpoint regFixture stateFixture "soul" 1 "a").2.versions =
        stateFixture.versions ++ [nv] := by
  have h5 := (rollback_notfound_or_single_append regFixture stateFixture
    "soul" 5 "a" "p1" rfl).1 rfl
  have h1 := (rollback_notfound_or_single_append regFixture stateFixture
    "soul" 1 "a" "p1" rfl).2
    ⟨"p1", "main", 1, [("voice", "v1"), ("identity", "i1")], "m", "a"⟩ rfl
  obtain ⟨nv, hok, happ, _, _⟩ := h1
  exact ⟨h5.2, nv, hok, happ⟩

lemma notify_subscribers_ok (connected : Bool) (db : SubStore)
    (pid slug : String) (ov nv : Nat) (note prio : String)
    (publish : String → EventData → Except String Unit) :
    notify_subscribers connected db pid slug ov nv note prio publish =
      Except.ok () := by
  unfold notify_subscribers swallow
  split <;> rfl

/-- C7: `_notify_subscribers` swallows every failure of its body (the
publisher connection, the subscriber select, each publish call), so a
successful commit is always reported as a success carrying the newly
created Version, for every publisher behaviour. -/
theorem create_version_notify_contained (reg : String → Option String)
    (connected : Bool) (publish : String → EventData → Except String Unit)
    (σ : ForgeState) (slug : String) (data : VersionCreate)
    (pid : String) (db : SubStore) (p s note prio : String) (ov nv : Nat)
    (hreg : reg slug = some pid) :
    notify_subscribers connected db p s ov nv note prio publish =
      Except.ok () ∧
    (create_version_endpoint reg connected publish σ slug data).1 =
      ApiResult.ok (commit σ.versions pid data.branch data.content
        data.message data.author).1 ∧
    (create_version_endpoint reg connected publish σ slug data).2.versions =
      (commit σ.versions pid data.branch data.content data.message
        data.author).2 := by
  refine ⟨notify_subscribers_ok .., ?_, ?_⟩ <;>
    simp [create_version_endpoint, hreg, notify_subscribers_ok]

/-- A state fixture with an existing subscriber of prompt `p1`. -/
def subscribedFixture : ForgeState :=
  { versions :=
      [⟨"p1", "main", 1, [("voice", "v1"), ("identity", "i1")], "m", "a"⟩],
    subs := { rows := [⟨0, "p1", "agent-1", "t0", "t0"⟩], nextId := 1 } }

theorem create_version_notify_contained_witness :
    notify_subscribers true subscribedFixture.subs "p1" "soul" 1 2 "m2"
      "normal" (fun _ _ => Except.error "event bus down") = Except.ok () ∧
    (create_version_endpoint regFixture true
        (fun _ _ => Except.error "event bus down") subscribedFixture "soul"
        ⟨"main", [("voice", "v2")], "m2", "a", none⟩).1 =
      ApiResult.ok ⟨"p1", "main", 2, [("voice", "v2")], "m2", "a"⟩ := by
  have h := create_version_notify_contained regFixture true
    (fun _ _ => Except.error "event bus down") subscribedFixture "soul"
    ⟨"main", [("voice", "v2")], "m2", "a", none⟩ "p1"
    subscribedFixture.subs "p1" "soul" "m2" "normal" 1 2 rfl
  exact ⟨h.1, h.2.1.trans (by rfl)⟩

/-- C2 counterexample: `get_version` is not pure — fetched with a non-empty
`X-Agent-ID` it writes to the subscription store (here: inserts a
subscription row into a previously empty table). -/
theorem get_version_writes_subscriptions :
    (get_version_endpoint "t1" regFixture stateFixture "soul" 1 "main"
      (some "agent-1")).2 ≠ stateFixture := by decide

/-- C2 amended: `history`, `diff` and `resolve` leave all stored state
unchanged; `get_version` leaves the version store unchanged and, when no
agent id accompanies the request, leaves the subscription store unchanged
too — but with an agent id it may write a subscription row, so it is pure
only with respect to versions and branch heads. -/
theorem reads_leave_versions_unchanged (now : String)
    (reg : String → Option String) (σ : ForgeState)
    (slug branch role : String) (limit : Int) (ver fromv tov : Nat)
    (verOpt : Option Nat) (agent : Option String) :
    (list_versions_endpoint reg σ slug branch limit).2 = σ ∧
    (diff_versions_endpoint reg σ slug fromv tov branch).2 = σ ∧
    (resolve_endpoint reg σ slug verOpt branch role).2 = σ ∧
    (get_version_endpoint now reg σ slug ver branch none).2 = σ ∧
    (get_version_endpoint now reg σ slug ver branch agent).2.versions =
      σ.versions := by
  refine ⟨?_, ?_, ?_, ?_, ?_⟩
  · unfold list_versions_endpoint
    repeat' split
    all_goals rfl
  · unfold diff_versions_endpoint
    repeat' split
    all_goals rfl
  · unfold resolve_endpoint
    repeat' first
    | rfl
    | split
    | simp only []
  · unfold get_version_endpoint
    repeat' split
    all_goals rfl
  · unfold get_version_endpoint
    repeat' split
    all_goals rfl
lemma mem_subMatches {pid a : String} {r : SubRow} {rows : List SubRow} :
    r ∈ subMatches pid a rows ↔
      r ∈ rows ∧ r.prompt_id = pid ∧ r.agent_id = a := by
  simp [subMatches, List.mem_filter]
  tauto

lemma auto_subscribe_rows_insert {now pid a : String} {db : SubStore}
    (ha : a ≠ "") (hm : subMatches pid a db.rows = []) :
    (auto_subscribe now pid (some a) db).rows =
      db.rows ++ [⟨db.nextId, pid, a, now, now⟩] := by
  simp only [auto_subscribe, hm, if_neg ha]

lemma auto_subscribe_rows_update {now pid a : String} {db : SubStore}
    {e : SubRow} {rest : List SubRow} (ha : a ≠ "")
    (hm : subMatches pid a db.rows = e :: rest) :
    (auto_subscribe now pid (some a) db).rows =
      db.rows.map fun r =>
        if r.id == e.id then { r with last_pulled_at := now } else r := by
  simp only [auto_subscribe, hm, if_neg ha]

lemma subMatches_ne_nil_after (now pid a : String) (db : SubStore)
    (ha : a ≠ "") :
    subMatches pid a (auto_subscribe now pid (some a) db).rows ≠ [] := by
  cases hm : subMatches pid a db.rows with
  | nil =>
      rw [auto_subscribe_rows_insert ha hm]
      apply List.ne_nil_of_mem
        (a := (⟨db.nextId, pid, a, now, now⟩ : SubRow))
      rw [mem_subMatches]
      exact ⟨List.mem_append_right _ (List.mem_singleton.mpr rfl), rfl, rfl⟩
  | cons e rest =>
      rw [auto_subscribe_rows_update ha hm]
      have he : e ∈ subMatches pid a db.rows := by
        rw [hm]; exact List.mem_cons_self _ _
      rw [mem_subMatches] at he
      obtain ⟨hmem, hpidE, haE⟩ := he
      apply List.ne_nil_of_mem
        (a := ({ e with last_pulled_at := now } : SubRow))
      rw [mem_subMatches]
      refine ⟨?_, hpidE, haE⟩
      have hf := List.mem_map_of_mem
        (fun r : SubRow =>
          if r.id == e.id then { r with last_pulled_at := now } else r) hmem
      simpa using hf

/-- C10: `_auto_subscribe` with a falsy agent id leaves the subscription
store untouched; with a real agent id it updates only the matched
subscription row's `last_pulled_at` when one exists (every other position is
unchanged, nothing is inserted), inserts exactly one new row when none
exists, and a repeated call by the same agent never grows the table — no
duplicate subscription is created. -/
theorem auto_subscribe_upsert (now now' pid a : String) (db : SubStore)
    (ha : a ≠ "") :
    auto_subscribe now pid none db = db ∧
    auto_subscribe now pid (some "") db = db ∧
    (subMatches pid a db.rows = [] →
      (auto_subscribe now pid (some a) db).rows =
        db.rows ++ [⟨db.nextId, pid, a, now, now⟩]) ∧
    (∀ e rest, subMatches pid a db.rows = e :: rest →
      (auto_subscribe now pid (some a) db).rows.length = db.rows.length ∧
      ∀ i : Nat, (auto_subscribe now pid (some a) db).rows[i]? =
        (db.rows[i]?).map fun r =>
          if r.id = e.id then { r with last_pulled_at := now } else r) ∧
    ((auto_subscribe now' pid (some a)
        (auto_subscribe now pid (some a) db)).rows.length =
      (auto_subscribe now pid (some a) db).rows.length) := by
  refine ⟨rfl, rfl, ?_, ?_, ?_⟩
  · intro h
    exact auto_subscribe_rows_insert ha h
  · intro e rest hm
    rw [auto_subscribe_rows_update ha hm]
    refine ⟨by simp, ?_⟩
    intro i
    rw [List.getElem?_map]
    cases hr : db.rows[i]? with
    | none => rfl
    | some r =>
        simp only [Option.map_some']
        by_cases hid : r.id = e.id <;> simp [beq_iff_eq, hid]
  · have hne := subMatches_ne_nil_after now pid a db ha
    cases hm2 :
        subMatches pid a (auto_subscribe now pid (some a) db).rows with
    | nil => exact absurd hm2 hne
    | cons e' rest' =>
        rw [auto_subscribe_rows_update ha hm2]
        simp

theorem auto_subscribe_upsert_witness :
    (auto_subscribe "t1" "p1" (some "agent-1") ⟨[], 0⟩).rows =
      [⟨0, "p1", "agent-1", "t1", "t1"⟩] ∧
    (auto_subscribe "t2" "p1" (some "agent-1")
        (auto_subscribe "t1" "p1" (some "agent-1") ⟨[], 0⟩)).rows.length =
      (auto_subscribe "t1" "p1" (some "agent-1") ⟨[], 0⟩).rows.length := by
  have h := auto_subscribe_upsert "t1" "t2" "p1" "agent-1" ⟨[], 0⟩ (by decide)
  exact ⟨h.2.2.1 rfl, h.2.2.2.2⟩
